import Mathlib

/-!
Verification development for the promoters repository: a research-analysis
toolkit that builds gene-regulatory-network model specifications, drives
parameter sweeps through an external stochastic simulation engine, compares
the resulting trajectory sets, and renders heatmap figures.  The notebook
code (plot_trajectories, plot_heatmap, the sweep loops) is embedded directly;
the package internals that the notebooks call (LinearModel,
ConditionSimulation, Comparison) are modelled from the specification text.
-/

set_option maxRecDepth 8192

namespace Promoters

/-- The three metabolic conditions used throughout the package, in the order
the notebooks iterate over them. -/
inductive Condition
  | normal
  | diabetic
  | hyper_metabolic
deriving DecidableEq, Repr

/-- A simulated time series as returned by the external engine: `t` is the
vector of timepoints and `states` is the three-axis array of levels indexed
trajectory, then species, then timepoint (so `states[k, -1, :]` is the
protein trajectory of cell `k`). -/
structure TimeSeries where
  t : List ℚ
  states : List (List (List ℚ))
deriving DecidableEq, Repr

/-- The protein row of one trajectory: the last species axis of its state
matrix, i.e. `states[k, -1, :]` in the notebooks. -/
def proteinRow (traj : List (List ℚ)) : List ℚ :=
  traj.getLast?.getD []

/-- Modelled from the spec: the threshold of the chosen threshold rule is
derived from the reference set as the largest protein level reached by any
reference trajectory. -/
def refThreshold (reference : TimeSeries) : ℚ :=
  (reference.states.map (fun traj => (proteinRow traj).foldl max 0)).foldl max 0

/-- Modelled from the spec: the chosen threshold rule classifies a compared
trajectory as a developmental error when its protein level exceeds the
threshold at some timepoint. -/
def isError (threshold : ℚ) (traj : List (List ℚ)) : Bool :=
  (proteinRow traj).any (fun x => decide (threshold < x))

/-- Modelled from the spec: the error-frequency statistic compares two sets
of simulated time series under the threshold rule, giving the frequency of
developmental errors among the compared trajectories relative to the
reference set. -/
def errorFrequency (reference compared : TimeSeries) : ℚ :=
  ((compared.states.filter (isError (refThreshold reference))).length : ℚ)
    / (compared.states.length : ℚ)

/-- Modelled from the spec: a Comparison holds a reference and a compared
set of simulated dynamics (genessa TimeSeries instances, simulated before
and after the perturbed elements are removed). -/
structure Comparison where
  reference : TimeSeries
  compared : TimeSeries
deriving DecidableEq, Repr

/-- The shared time axis used for plotting, `comparison.t` in the notebooks. -/
def Comparison.t (c : Comparison) : List ℚ :=
  c.reference.t

/-- Modelled from the spec: the `threshold_error` attribute exposes the
error frequency of the comparison. -/
def Comparison.threshold_error (c : Comparison) : ℚ :=
  errorFrequency c.reference c.compared

/-- Claim C1: for a completed Comparison (a nonempty compared set), the
threshold_error attribute is the error-frequency statistic of the threshold
rule — the frequency of developmental errors among the compared trajectories
relative to the reference set — and is a proportion between 0 and 1. -/
theorem threshold_error_is_frequency_in_unit_interval (c : Comparison)
    (h : 0 < c.compared.states.length) :
    c.threshold_error =
      ((c.compared.states.filter (isError (refThreshold c.reference))).length : ℚ)
        / (c.compared.states.length : ℚ)
    ∧ 0 ≤ c.threshold_error ∧ c.threshold_error ≤ 1 := by
  refine ⟨rfl, ?_, ?_⟩
  · apply div_nonneg <;> exact_mod_cast Nat.zero_le _
  · rw [Comparison.threshold_error, errorFrequency,
      div_le_one (by exact_mod_cast h)]
    exact_mod_cast List.length_filter_le _ _

/-- A concrete reference set of two trajectories for the witness. -/
def witnessReference : TimeSeries :=
  { t := [0, 1], states := [[[1, 2]], [[1, 1]]] }

/-- A concrete compared set of two trajectories, one of which exceeds the
reference threshold, for the witness. -/
def witnessCompared : TimeSeries :=
  { t := [0, 1], states := [[[3, 1]], [[0, 1]]] }

/-- A concrete completed comparison for the witness. -/
def witnessComparison : Comparison :=
  { reference := witnessReference, compared := witnessCompared }

/-- Witness for claim C1 at a concrete comparison. -/
theorem threshold_error_unit_interval_witness :
    witnessComparison.threshold_error =
      ((witnessComparison.compared.states.filter
          (isError (refThreshold witnessComparison.reference))).length : ℚ)
        / (witnessComparison.compared.states.length : ℚ)
    ∧ 0 ≤ witnessComparison.threshold_error
    ∧ witnessComparison.threshold_error ≤ 1 :=
  threshold_error_is_frequency_in_unit_interval witnessComparison (by decide)

/-- Modelled from the spec: the LinearModel GRN template from
promoters.models.linear, restricted to what the notebooks exercise: the rate
parameters g1 and g2, the include_activation flag, and the lists of promoter
and feedback (repressor) elements.  Each element carries its three strengths
(eta1, eta2, eta3) acting on the gene, mRNA and protein targets, together
with the perturbed flag marking it for later removal. -/
structure LinearModel where
  g1 : ℚ
  g2 : ℚ
  include_activation : Bool
  promoters : List ((ℚ × ℚ × ℚ) × Bool)
  feedback : List ((ℚ × ℚ × ℚ) × Bool)
deriving DecidableEq, Repr

/-- Modelled from the spec: LinearModel construction; the element lists
start empty (in the source, perturbed defaults to false and
include_activation defaults to false when omitted). -/
def LinearModel.init (g1 g2 : ℚ) (include_activation : Bool) : LinearModel :=
  { g1 := g1, g2 := g2, include_activation := include_activation,
    promoters := [], feedback := [] }

/-- Modelled from the spec: add_promoters appends one promoter element with
the given activation strengths and perturbed flag. -/
def LinearModel.add_promoters (m : LinearModel) (eta1 eta2 eta3 : ℚ)
    (perturbed : Bool) : LinearModel :=
  { m with promoters := m.promoters ++ [((eta1, eta2, eta3), perturbed)] }

/-- Modelled from the spec: add_feedback appends one repressor element with
the given feedback strengths and perturbed flag. -/
def LinearModel.add_feedback (m : LinearModel) (eta1 eta2 eta3 : ℚ)
    (perturbed : Bool) : LinearModel :=
  { m with feedback := m.feedback ++ [((eta1, eta2, eta3), perturbed)] }

/-- Modelled from the spec: the perturbation drops every element that was
added with perturbed=True, keeping the rest of the model unchanged. -/
def removePerturbed (m : LinearModel) : LinearModel :=
  { m with promoters := m.promoters.filter (fun e => !e.2),
           feedback := m.feedback.filter (fun e => !e.2) }

/-- Modelled from the spec: the external stochastic simulation engine
(GeneSSA), a black-box collaborator mapping a model specification, a
metabolic condition and a trajectory count N to a simulated time series. -/
abbrev Engine : Type := LinearModel → Condition → Nat → TimeSeries

/-- The order in which the package simulates the metabolic conditions. -/
def threeConditions : List Condition :=
  [Condition.normal, Condition.diabetic, Condition.hyper_metabolic]

/-- Modelled from the spec: a ConditionSimulation holds the model to be
simulated and, once run, the dictionary of Comparison objects keyed by
metabolic condition. -/
structure ConditionSimulation where
  model : LinearModel
  comparisons : List (Condition × Comparison)
deriving DecidableEq, Repr

/-- Modelled from the spec: the comparison simulated for one condition pairs
the dynamics of the intact model (reference) with the dynamics of the model
after its perturbed elements are removed (compared). -/
def mkComparison (engine : Engine) (m : LinearModel) (cond : Condition)
    (N : Nat) : Comparison :=
  { reference := engine m cond N,
    compared := engine (removePerturbed m) cond N }

/-- Modelled from the spec: ConditionSimulation.run simulates the model
before and after perturbation under each of the three metabolic conditions
and stores the resulting Comparison objects keyed by condition. -/
def ConditionSimulation.run (sim : ConditionSimulation) (engine : Engine)
    (N : Nat) : ConditionSimulation :=
  { sim with comparisons :=
      threeConditions.map (fun cond => (cond, mkComparison engine sim.model cond N)) }

/-- Claim C2: after run completes, the comparisons attribute is keyed by
exactly the three metabolic conditions normal, diabetic and hyper_metabolic,
and each key maps to the Comparison holding the dynamics simulated under
that condition. -/
theorem run_comparisons_keyed_by_three_conditions
    (sim : ConditionSimulation) (engine : Engine) (N : Nat) :
    ((sim.run engine N).comparisons.map Prod.fst
        = [Condition.normal, Condition.diabetic, Condition.hyper_metabolic])
    ∧ ∀ cond : Condition,
        ((sim.run engine N).comparisons).lookup cond
          = some (mkComparison engine sim.model cond N) := by
  refine ⟨rfl, fun cond => ?_⟩
  cases cond <;> rfl

/-- Claim C3: for a model with elements added under perturbed=True (a
promoter via add_promoters or a repressor via add_feedback), every
Comparison produced by run pairs the intact model dynamics (reference) with
the dynamics after the perturbed elements are removed (compared), its
threshold_error is the error-frequency statistic between the two, and the
removal indeed strips exactly the perturbed additions. -/
theorem run_compares_intact_vs_perturbed_removed
    (engine : Engine) (N : Nat) (m0 : LinearModel) (e1 e2 e3 f1 f2 f3 : ℚ) :
    (∀ cond : Condition, ∃ c : Comparison,
        ((ConditionSimulation.mk (m0.add_promoters e1 e2 e3 true) []).run
            engine N).comparisons.lookup cond = some c
        ∧ c.reference = engine (m0.add_promoters e1 e2 e3 true) cond N
        ∧ c.compared
            = engine (removePerturbed (m0.add_promoters e1 e2 e3 true)) cond N
        ∧ c.threshold_error = errorFrequency c.reference c.compared)
    ∧ removePerturbed (m0.add_promoters e1 e2 e3 true) = removePerturbed m0
    ∧ (∀ cond : Condition, ∃ c : Comparison,
        ((ConditionSimulation.mk (m0.add_feedback f1 f2 f3 true) []).run
            engine N).comparisons.lookup cond = some c
        ∧ c.reference = engine (m0.add_feedback f1 f2 f3 true) cond N
        ∧ c.compared
            = engine (removePerturbed (m0.add_feedback f1 f2 f3 true)) cond N
        ∧ c.threshold_error = errorFrequency c.reference c.compared)
    ∧ removePerturbed (m0.add_feedback f1 f2 f3 true) = removePerturbed m0 := by
  refine ⟨fun cond => ?_, ?_, fun cond => ?_, ?_⟩
  · cases cond <;> exact ⟨_, rfl, rfl, rfl, rfl⟩
  · simp [removePerturbed, LinearModel.add_promoters, List.filter_append]
  · cases cond <;> exact ⟨_, rfl, rfl, rfl, rfl⟩
  · simp [removePerturbed, LinearModel.add_feedback, List.filter_append]

/-- Componentwise read of a strength triple; position 0 targets the gene,
1 the mRNA, 2 the protein (`eta[i]` in the notebooks). -/
def vecGet (v : ℚ × ℚ × ℚ) (i : Fin 3) : ℚ :=
  match i.val with
  | 0 => v.1
  | 1 => v.2.1
  | _ => v.2.2

/-- The list `[0, 0, 0]` with position i set to x, as built in the sweep
loops of the notebooks. -/
def vecSet (i : Fin 3) (x : ℚ) : ℚ × ℚ × ℚ :=
  match i.val with
  | 0 => (x, 0, 0)
  | 1 => (0, x, 0)
  | _ => (0, 0, x)

/-- The eta tuple of the repressor-pair notebook, eta = (5e-4, 1e-4, 5e-4). -/
def repressorSweepEta : ℚ × ℚ × ℚ :=
  (5/10000, 1/10000, 5/10000)

/-- The model built in the body of the repressor-pair sweep loop for the
ordered pair (i, j): a LinearModel(g1=0.01, g2=0.001) with the permanent
feedback vector (eta[i] at position i) added un-perturbed and the removed
feedback vector (eta[j] at position j) added with perturbed=True. -/
def repressorPairModel (i j : Fin 3) : LinearModel :=
  let permanent := vecSet i (vecGet repressorSweepEta i)
  let removed := vecSet j (vecGet repressorSweepEta j)
  ((LinearModel.init (1/100) (1/1000) false).add_feedback
      permanent.1 permanent.2.1 permanent.2.2 false).add_feedback
    removed.1 removed.2.1 removed.2.2 true

/-- The repressor-pair sweep loop from the notebook: for each ordered pair
(i, j) construct the model, run a ConditionSimulation, and record its
comparisons under key (i, j). -/
def repressorSweep (engine : Engine) (N : Nat) :
    List ((Fin 3 × Fin 3) × List (Condition × Comparison)) :=
  (List.finRange 3).flatMap fun i =>
    (List.finRange 3).map fun j =>
      ((i, j),
        ((ConditionSimulation.mk (repressorPairModel i j) []).run engine N).comparisons)

/-- The eta tuple of the promoter-loss notebook, eta = (0.5, 0.5, 0.5). -/
def promoterSweepEta : ℚ × ℚ × ℚ :=
  (1/2, 1/2, 1/2)

/-- The model built in the body of the promoter-loss sweep loop for index i:
a LinearModel(g1=0.01, g2=0.001, include_activation=True) with the removed
promoter vector (eta[i] at position i) added with perturbed=True. -/
def promoterLossModel (i : Fin 3) : LinearModel :=
  let removed := vecSet i (vecGet promoterSweepEta i)
  (LinearModel.init (1/100) (1/1000) true).add_promoters
    removed.1 removed.2.1 removed.2.2 true

/-- The promoter-loss sweep loop from the notebook: one model and one
ConditionSimulation per index i, recorded under key i. -/
def promoterSweep (engine : Engine) (N : Nat) :
    List (Fin 3 × List (Condition × Comparison)) :=
  (List.finRange 3).map fun i =>
    (i, ((ConditionSimulation.mk (promoterLossModel i) []).run engine N).comparisons)

/-- Claim C4: the repressor-pair sweep is keyed by exactly the nine ordered
pairs over positions 0..2, each key holding the comparisons of the one
simulation whose model carries the permanent feedback vector (eta[i] at
position i, 0 elsewhere) and the perturbed removed feedback vector (eta[j]
at position j, 0 elsewhere); the promoter-loss sweep analogously has exactly
one entry per index i. -/
theorem sweeps_enumerate_models_per_position (engine : Engine) (N : Nat) :
    ((repressorSweep engine N).map Prod.fst
        = (List.finRange 3).flatMap fun i => (List.finRange 3).map fun j => (i, j))
    ∧ ((repressorSweep engine N).map Prod.fst).Nodup
    ∧ (∀ i j : Fin 3, (repressorSweep engine N).lookup (i, j)
        = some (((ConditionSimulation.mk (repressorPairModel i j) []).run
            engine N).comparisons))
    ∧ (∀ i j : Fin 3, (repressorPairModel i j).feedback
        = [(vecSet i (vecGet repressorSweepEta i), false),
           (vecSet j (vecGet repressorSweepEta j), true)])
    ∧ (∀ i k : Fin 3, vecGet (vecSet i (vecGet repressorSweepEta i)) k
        = if k = i then vecGet repressorSweepEta i else 0)
    ∧ ((promoterSweep engine N).map Prod.fst = List.finRange 3)
    ∧ (∀ i : Fin 3, (promoterSweep engine N).lookup i
        = some (((ConditionSimulation.mk (promoterLossModel i) []).run
            engine N).comparisons))
    ∧ (∀ i : Fin 3, (promoterLossModel i).promoters
        = [(vecSet i (vecGet promoterSweepEta i), true)])
    ∧ (∀ i k : Fin 3, vecGet (vecSet i (vecGet promoterSweepEta i)) k
        = if k = i then vecGet promoterSweepEta i else 0) := by
  refine ⟨rfl, ?_, fun i j => ?_, fun i j => ?_, fun i k => ?_, rfl,
    fun i => ?_, fun i => ?_, fun i k => ?_⟩
  · rw [show (repressorSweep engine N).map Prod.fst
        = ((List.finRange 3).flatMap fun i =>
            (List.finRange 3).map fun j => (i, j)) from rfl]
    decide
  · fin_cases i <;> fin_cases j <;> rfl
  · fin_cases i <;> fin_cases j <;> rfl
  · fin_cases i <;> fin_cases k <;> rfl
  · fin_cases i <;> rfl
  · fin_cases i <;> rfl
  · fin_cases i <;> fin_cases k <;> rfl

/-- A comparisons dictionary keyed by metabolic condition, the value stored
per sweep position. -/
abbrev CondMap : Type := List (Condition × Comparison)

/-- The comparisons mapping of the repressor-pair notebook, keyed by ordered
pairs of positions. -/
abbrev PairGrid : Type := List ((Fin 3 × Fin 3) × CondMap)

/-- The comparisons mapping of the promoter-loss notebook, keyed by single
positions. -/
abbrev LossGrid : Type := List (Fin 3 × CondMap)

namespace Pairwise

/-- One step of the heatmap loop: the numpy write matrix[i, j] = x. -/
def matUpdate (mat : Fin 3 → Fin 3 → ℚ) (i j : Fin 3) (x : ℚ) :
    Fin 3 → Fin 3 → ℚ :=
  fun a b => if a = i ∧ b = j then x else mat a b

/-- The matrix-assembly loop of plot_heatmap in the repressor-pair notebook:
starting from np.zeros((3, 3)), write comparison[condition].threshold_error
into cell (i, j) for each entry of the mapping; looking up a condition that
is absent raises KeyError, modelled as none. -/
def assembleMatrix (condition : Condition) :
    PairGrid → (Fin 3 → Fin 3 → ℚ) → Option (Fin 3 → Fin 3 → ℚ)
  | [], mat => some mat
  | entry :: rest, mat =>
    match entry.2.lookup condition with
    | some comparison =>
        assembleMatrix condition rest
          (matUpdate mat entry.1.1 entry.1.2 comparison.threshold_error)
    | none => none

/-- The rendered figure: ax.imshow(matrix.T, vmin=0, vmax=1) displays the
transpose of the assembled matrix on a color scale fixed to [0, 1]. -/
structure HeatmapFig where
  rendered : Fin 3 → Fin 3 → ℚ
  vmin : ℚ
  vmax : ℚ

/-- plot_heatmap from the repressor-pair notebook: assemble the 3x3 matrix,
then render its transpose with the color range fixed to [0, 1]. -/
def plot_heatmap (comparisons : PairGrid) (condition : Condition) :
    Option HeatmapFig :=
  (assembleMatrix condition comparisons (fun _ _ => 0)).map
    (fun matrix => { rendered := fun a b => matrix b a, vmin := 0, vmax := 1 })

theorem pair_assemble_some (condition : Condition) :
    ∀ (l : PairGrid) (mat : Fin 3 → Fin 3 → ℚ),
      (∀ e ∈ l, (e.2.lookup condition).isSome) →
      ∃ m, assembleMatrix condition l mat = some m := by
  intro l
  induction l with
  | nil => exact fun mat _ => ⟨mat, rfl⟩
  | cons e rest ih =>
    intro mat h
    have he := h e (List.mem_cons_self e rest)
    cases hl : e.2.lookup condition with
    | none => rw [hl] at he; simp at he
    | some comparison =>
      obtain ⟨m, hm⟩ :=
        ih (matUpdate mat e.1.1 e.1.2 comparison.threshold_error)
          (fun x hx => h x (List.mem_cons_of_mem e hx))
      exact ⟨m, by simp only [assembleMatrix, hl]; exact hm⟩

theorem pair_assemble_not_mem (condition : Condition) :
    ∀ (l : PairGrid) (mat m : Fin 3 → Fin 3 → ℚ) (i j : Fin 3),
      (i, j) ∉ l.map Prod.fst →
      assembleMatrix condition l mat = some m →
      m i j = mat i j := by
  intro l
  induction l with
  | nil =>
    intro mat m i j _ hm
    simp only [assembleMatrix, Option.some.injEq] at hm
    rw [← hm]
  | cons e rest ih =>
    intro mat m i j hnm hm
    simp only [List.map_cons, List.mem_cons, not_or] at hnm
    cases hl : e.2.lookup condition with
    | none =>
      simp only [assembleMatrix, hl] at hm
      exact Option.noConfusion hm
    | some comparison =>
      simp only [assembleMatrix, hl] at hm
      rw [ih _ m i j hnm.2 hm, matUpdate, if_neg]
      intro hc
      exact hnm.1 (by rw [← Prod.mk.eta (p := e.1), ← hc.1, ← hc.2])

theorem pair_assemble_mem (condition : Condition) :
    ∀ (l : PairGrid) (mat m : Fin 3 → Fin 3 → ℚ) (i j : Fin 3)
      (cmap : CondMap) (comparison : Comparison),
      (l.map Prod.fst).Nodup →
      ((i, j), cmap) ∈ l →
      cmap.lookup condition = some comparison →
      assembleMatrix condition l mat = some m →
      m i j = comparison.threshold_error := by
  intro l
  induction l with
  | nil => intro mat m i j cmap comparison _ hmem; simp at hmem
  | cons e rest ih =>
    intro mat m i j cmap comparison hnd hmem hcl hm
    simp only [List.map_cons, List.nodup_cons] at hnd
    rcases List.mem_cons.mp hmem with hhead | htail
    · subst hhead
      have hstep : assembleMatrix condition (((i, j), cmap) :: rest) mat
          = assembleMatrix condition rest
              (matUpdate mat i j comparison.threshold_error) := by
        simp only [assembleMatrix, hcl]
      rw [hstep] at hm
      rw [pair_assemble_not_mem condition rest _ m i j hnd.1 hm]
      simp [matUpdate]
    · cases hl : e.2.lookup condition with
      | none =>
        simp only [assembleMatrix, hl] at hm
        exact Option.noConfusion hm
      | some comparison2 =>
        simp only [assembleMatrix, hl] at hm
        exact ih _ m i j cmap comparison hnd.2 htail hcl hm

end Pairwise

namespace PromoterLoss

/-- One step of the 3x1 heatmap loop: the numpy write matrix[i] = x. -/
def matUpdate (mat : Fin 3 → ℚ) (i : Fin 3) (x : ℚ) : Fin 3 → ℚ :=
  fun a => if a = i then x else mat a

/-- The matrix-assembly loop of plot_heatmap in the promoter-loss notebook:
starting from np.zeros((3, 1)), write comparison[condition].threshold_error
into row i for each entry of the mapping; a missing condition key raises
KeyError, modelled as none. -/
def assembleMatrix (condition : Condition) :
    LossGrid → (Fin 3 → ℚ) → Option (Fin 3 → ℚ)
  | [], mat => some mat
  | entry :: rest, mat =>
    match entry.2.lookup condition with
    | some comparison =>
        assembleMatrix condition rest
          (matUpdate mat entry.1 comparison.threshold_error)
    | none => none

/-- The rendered 3x1 figure: ax.imshow(matrix, vmin=0, vmax=1) displays the
assembled column on a color scale fixed to [0, 1]. -/
structure HeatmapFig where
  rendered : Fin 3 → ℚ
  vmin : ℚ
  vmax : ℚ

/-- plot_heatmap from the promoter-loss notebook: assemble the 3x1 matrix,
then render it with the color range fixed to [0, 1]. -/
def plot_heatmap (comparisons : LossGrid) (condition : Condition) :
    Option HeatmapFig :=
  (assembleMatrix condition comparisons (fun _ => 0)).map
    (fun matrix => { rendered := matrix, vmin := 0, vmax := 1 })

theorem loss_assemble_some (condition : Condition) :
    ∀ (l : LossGrid) (mat : Fin 3 → ℚ),
      (∀ e ∈ l, (e.2.lookup condition).isSome) →
      ∃ m, assembleMatrix condition l mat = some m := by
  intro l
  induction l with
  | nil => exact fun mat _ => ⟨mat, rfl⟩
  | cons e rest ih =>
    intro mat h
    have he := h e (List.mem_cons_self e rest)
    cases hl : e.2.lookup condition with
    | none => rw [hl] at he; simp at he
    | some comparison =>
      obtain ⟨m, hm⟩ :=
        ih (matUpdate mat e.1 comparison.threshold_error)
          (fun x hx => h x (List.mem_cons_of_mem e hx))
      exact ⟨m, by simp only [assembleMatrix, hl]; exact hm⟩

theorem loss_assemble_not_mem (condition : Condition) :
    ∀ (l : LossGrid) (mat m : Fin 3 → ℚ) (i : Fin 3),
      i ∉ l.map Prod.fst →
      assembleMatrix condition l mat = some m →
      m i = mat i := by
  intro l
  induction l with
  | nil =>
    intro mat m i _ hm
    simp only [assembleMatrix, Option.some.injEq] at hm
    rw [← hm]
  | cons e rest ih =>
    intro mat m i hnm hm
    simp only [List.map_cons, List.mem_cons, not_or] at hnm
    cases hl : e.2.lookup condition with
    | none =>
      simp only [assembleMatrix, hl] at hm
      exact Option.noConfusion hm
    | some comparison =>
      simp only [assembleMatrix, hl] at hm
      rw [ih _ m i hnm.2 hm, matUpdate, if_neg hnm.1]

theorem loss_assemble_mem (condition : Condition) :
    ∀ (l : LossGrid) (mat m : Fin 3 → ℚ) (i : Fin 3)
      (cmap : CondMap) (comparison : Comparison),
      (l.map Prod.fst).Nodup →
      (i, cmap) ∈ l →
      cmap.lookup condition = some comparison →
      assembleMatrix condition l mat = some m →
      m i = comparison.threshold_error := by
  intro l
  induction l with
  | nil => intro mat m i cmap comparison _ hmem; simp at hmem
  | cons e rest ih =>
    intro mat m i cmap comparison hnd hmem hcl hm
    simp only [List.map_cons, List.nodup_cons] at hnd
    rcases List.mem_cons.mp hmem with hhead | htail
    · subst hhead
      have hstep : assembleMatrix condition ((i, cmap) :: rest) mat
          = assembleMatrix condition rest
              (matUpdate mat i comparison.threshold_error) := by
        simp only [assembleMatrix, hcl]
      rw [hstep] at hm
      rw [loss_assemble_not_mem condition rest _ m i hnd.1 hm]
      simp [matUpdate]
    · cases hl : e.2.lookup condition with
      | none =>
        simp only [assembleMatrix, hl] at hm
        exact Option.noConfusion hm
      | some comparison2 =>
        simp only [assembleMatrix, hl] at hm
        exact ih _ m i cmap comparison hnd.2 htail hcl hm

end PromoterLoss

/-- Claim C5: for a pair-keyed comparisons mapping, plot_heatmap assembles a
3x3 matrix initialized to zero whose (i, j) entry is
comparisons[(i, j)][condition].threshold_error for every key present, and
renders the transpose of that matrix with the color range fixed to [0, 1];
the 3x1 promoter-loss variant fills matrix[i] from
comparisons[i][condition].threshold_error and renders it likewise. -/
theorem plot_heatmap_matrix_entries
    (pg : PairGrid) (lg : LossGrid) (condition : Condition)
    (hpnd : (pg.map Prod.fst).Nodup)
    (hpall : ∀ e ∈ pg, (e.2.lookup condition).isSome)
    (hlnd : (lg.map Prod.fst).Nodup)
    (hlall : ∀ e ∈ lg, (e.2.lookup condition).isSome) :
    (∃ matrix, Pairwise.assembleMatrix condition pg (fun _ _ => 0) = some matrix
      ∧ (∀ (i j : Fin 3) (cmap : CondMap) (comparison : Comparison),
          ((i, j), cmap) ∈ pg → cmap.lookup condition = some comparison →
          matrix i j = comparison.threshold_error)
      ∧ Pairwise.plot_heatmap pg condition
          = some { rendered := fun a b => matrix b a, vmin := 0, vmax := 1 })
    ∧ (∃ matrix1, PromoterLoss.assembleMatrix condition lg (fun _ => 0) = some matrix1
      ∧ (∀ (i : Fin 3) (cmap : CondMap) (comparison : Comparison),
          (i, cmap) ∈ lg → cmap.lookup condition = some comparison →
          matrix1 i = comparison.threshold_error)
      ∧ PromoterLoss.plot_heatmap lg condition
          = some { rendered := matrix1, vmin := 0, vmax := 1 }) := by
  obtain ⟨m, hm⟩ := Pairwise.pair_assemble_some condition pg (fun _ _ => 0) hpall
  obtain ⟨m1, hm1⟩ := PromoterLoss.loss_assemble_some condition lg (fun _ => 0) hlall
  refine ⟨⟨m, hm, ?_, ?_⟩, ⟨m1, hm1, ?_, ?_⟩⟩
  · intro i j cmap comparison hmem hcl
    exact Pairwise.pair_assemble_mem condition pg _ m i j cmap comparison
      hpnd hmem hcl hm
  · rw [Pairwise.plot_heatmap, hm]; rfl
  · intro i cmap comparison hmem hcl
    exact PromoterLoss.loss_assemble_mem condition lg _ m1 i cmap comparison
      hlnd hmem hcl hm1
  · rw [PromoterLoss.plot_heatmap, hm1]; rfl

/-- A concrete per-condition comparisons dictionary for the witnesses. -/
def witnessCondMap : CondMap :=
  [(Condition.normal, witnessComparison),
   (Condition.diabetic, witnessComparison),
   (Condition.hyper_metabolic, witnessComparison)]

/-- A concrete pair-keyed mapping (two of the nine grid cells present). -/
def witnessPairGrid : PairGrid :=
  [((0, 0), witnessCondMap), ((1, 2), witnessCondMap)]

/-- A concrete position-keyed mapping (two of the three rows present). -/
def witnessLossGrid : LossGrid :=
  [(0, witnessCondMap), (2, witnessCondMap)]

/-- Witness for claim C5 at concrete mappings. -/
theorem plot_heatmap_matrix_entries_witness :
    (∃ matrix, Pairwise.assembleMatrix Condition.normal witnessPairGrid
          (fun _ _ => 0) = some matrix
      ∧ (∀ (i j : Fin 3) (cmap : CondMap) (comparison : Comparison),
          ((i, j), cmap) ∈ witnessPairGrid →
          cmap.lookup Condition.normal = some comparison →
          matrix i j = comparison.threshold_error)
      ∧ Pairwise.plot_heatmap witnessPairGrid Condition.normal
          = some { rendered := fun a b => matrix b a, vmin := 0, vmax := 1 })
    ∧ (∃ matrix1, PromoterLoss.assembleMatrix Condition.normal witnessLossGrid
          (fun _ => 0) = some matrix1
      ∧ (∀ (i : Fin 3) (cmap : CondMap) (comparison : Comparison),
          (i, cmap) ∈ witnessLossGrid →
          cmap.lookup Condition.normal = some comparison →
          matrix1 i = comparison.threshold_error)
      ∧ PromoterLoss.plot_heatmap witnessLossGrid Condition.normal
          = some { rendered := matrix1, vmin := 0, vmax := 1 }) :=
  plot_heatmap_matrix_entries witnessPairGrid witnessLossGrid Condition.normal
    (by decide) (by decide) (by decide) (by decide)

/-- Claim C9: when the mapping lacks an entry for a grid position, the loop
simply skips that position, so plot_heatmap still succeeds, the cell keeps
its zero initialization and is rendered as an error frequency of 0 — which
is exactly what an entry whose genuinely computed threshold_error is 0 would
render, for both the 3x3 and 3x1 variants. -/
theorem plot_heatmap_missing_entry_zero
    (pg : PairGrid) (lg : LossGrid) (condition : Condition) (i j : Fin 3)
    (hpmiss : (i, j) ∉ pg.map Prod.fst)
    (hpall : ∀ e ∈ pg, (e.2.lookup condition).isSome)
    (hlmiss : i ∉ lg.map Prod.fst)
    (hlall : ∀ e ∈ lg, (e.2.lookup condition).isSome) :
    (∃ matrix, Pairwise.assembleMatrix condition pg (fun _ _ => 0) = some matrix
      ∧ matrix i j = 0
      ∧ ∃ fig, Pairwise.plot_heatmap pg condition = some fig
          ∧ fig.rendered j i = 0)
    ∧ (∀ (cmap : CondMap) (comparison : Comparison),
        cmap.lookup condition = some comparison →
        comparison.threshold_error = 0 →
        Pairwise.plot_heatmap (((i, j), cmap) :: pg) condition
          = Pairwise.plot_heatmap pg condition)
    ∧ (∃ matrix1, PromoterLoss.assembleMatrix condition lg (fun _ => 0) = some matrix1
      ∧ matrix1 i = 0
      ∧ ∃ fig, PromoterLoss.plot_heatmap lg condition = some fig
          ∧ fig.rendered i = 0)
    ∧ (∀ (cmap : CondMap) (comparison : Comparison),
        cmap.lookup condition = some comparison →
        comparison.threshold_error = 0 →
        PromoterLoss.plot_heatmap ((i, cmap) :: lg) condition
          = PromoterLoss.plot_heatmap lg condition) := by
  obtain ⟨m, hm⟩ := Pairwise.pair_assemble_some condition pg (fun _ _ => 0) hpall
  obtain ⟨m1, hm1⟩ := PromoterLoss.loss_assemble_some condition lg (fun _ => 0) hlall
  have hz : m i j = 0 := Pairwise.pair_assemble_not_mem condition pg _ m i j hpmiss hm
  have hz1 : m1 i = 0 := PromoterLoss.loss_assemble_not_mem condition lg _ m1 i hlmiss hm1
  refine ⟨⟨m, hm, hz, ⟨_, by rw [Pairwise.plot_heatmap, hm]; rfl, hz⟩⟩,
    ?_, ⟨m1, hm1, hz1, ⟨_, by rw [PromoterLoss.plot_heatmap, hm1]; rfl, hz1⟩⟩, ?_⟩
  · intro cmap comparison hcl hte
    have h0 : Pairwise.matUpdate (fun _ _ => (0:ℚ)) i j comparison.threshold_error
        = fun _ _ => (0:ℚ) := by
      funext a b; simp [Pairwise.matUpdate, hte]
    simp only [Pairwise.plot_heatmap, Pairwise.assembleMatrix, hcl, h0]
  · intro cmap comparison hcl hte
    have h0 : PromoterLoss.matUpdate (fun _ => (0:ℚ)) i comparison.threshold_error
        = fun _ => (0:ℚ) := by
      funext a; simp [PromoterLoss.matUpdate, hte]
    simp only [PromoterLoss.plot_heatmap, PromoterLoss.assembleMatrix, hcl, h0]

/-- Witness for claim C9 at concrete mappings missing position (1, 0) and
row 1 respectively. -/
theorem plot_heatmap_missing_entry_zero_witness :
    (∃ matrix, Pairwise.assembleMatrix Condition.normal witnessPairGrid
          (fun _ _ => 0) = some matrix
      ∧ matrix 1 0 = 0
      ∧ ∃ fig, Pairwise.plot_heatmap witnessPairGrid Condition.normal = some fig
          ∧ fig.rendered 0 1 = 0)
    ∧ (∀ (cmap : CondMap) (comparison : Comparison),
        cmap.lookup Condition.normal = some comparison →
        comparison.threshold_error = 0 →
        Pairwise.plot_heatmap (((1, 0), cmap) :: witnessPairGrid) Condition.normal
          = Pairwise.plot_heatmap witnessPairGrid Condition.normal)
    ∧ (∃ matrix1, PromoterLoss.assembleMatrix Condition.normal witnessLossGrid
          (fun _ => 0) = some matrix1
      ∧ matrix1 1 = 0
      ∧ ∃ fig, PromoterLoss.plot_heatmap witnessLossGrid Condition.normal = some fig
          ∧ fig.rendered 1 = 0)
    ∧ (∀ (cmap : CondMap) (comparison : Comparison),
        cmap.lookup Condition.normal = some comparison →
        comparison.threshold_error = 0 →
        PromoterLoss.plot_heatmap ((1, cmap) :: witnessLossGrid) Condition.normal
          = PromoterLoss.plot_heatmap witnessLossGrid Condition.normal) :=
  plot_heatmap_missing_entry_zero witnessPairGrid witnessLossGrid
    Condition.normal 1 0 (by decide) (by decide) (by decide) (by decide)

/-- One matplotlib line added by ax.plot(comparison.t, trajectory, color). -/
structure TrajLine where
  xdata : List ℚ
  ydata : List ℚ
  color : String
deriving DecidableEq, Repr

/-- The fancy-indexed row selection states[ind, -1, :]: take the trajectory
with index k for each k in ind and keep its last species row; an
out-of-range trajectory index raises IndexError, modelled as none. -/
def selectRows (ts : TimeSeries) : List Nat → Option (List (List ℚ))
  | [] => some []
  | k :: ks =>
    match ts.states[k]?, selectRows ts ks with
    | some traj, some rows => some (proteinRow traj :: rows)
    | _, _ => none

/-- plot_trajectories from the notebook: draw the reference rows selected by
ind in magenta and the compared rows selected by the same ind in grey, each
against comparison.t. -/
def plot_trajectories (comparison : Comparison) (ind : List Nat) :
    Option (List TrajLine) :=
  match selectRows comparison.reference ind, selectRows comparison.compared ind with
  | some refRows, some cmpRows =>
      some (refRows.map (fun r => { xdata := comparison.t, ydata := r, color := "m" })
        ++ cmpRows.map (fun r => { xdata := comparison.t, ydata := r, color := "grey" }))
  | _, _ => none

theorem selectRows_mem (ts : TimeSeries) :
    ∀ (ind : List Nat) (rows : List (List ℚ)),
      selectRows ts ind = some rows →
      (∀ r ∈ rows, ∃ k ∈ ind, ∃ traj, ts.states[k]? = some traj ∧ r = proteinRow traj)
      ∧ (∀ k ∈ ind, ∃ traj, ts.states[k]? = some traj ∧ proteinRow traj ∈ rows)
      ∧ rows.length = ind.length := by
  intro ind
  induction ind with
  | nil =>
    intro rows h
    simp only [selectRows, Option.some.injEq] at h
    subst h
    exact ⟨fun r hr => absurd hr (List.not_mem_nil r), fun k hk => absurd hk (List.not_mem_nil k), rfl⟩
  | cons k ks ih =>
    intro rows h
    cases hg : ts.states[k]? with
    | none =>
      simp only [selectRows, hg] at h
      exact Option.noConfusion h
    | some traj =>
      cases hrest : selectRows ts ks with
      | none =>
        simp only [selectRows, hg, hrest] at h
        exact Option.noConfusion h
      | some rows0 =>
        simp only [selectRows, hg, hrest, Option.some.injEq] at h
        subst h
        obtain ⟨h1, h2, h3⟩ := ih rows0 hrest
        refine ⟨?_, ?_, by simp [h3]⟩
        · intro r hr
          rcases List.mem_cons.mp hr with hr0 | hr1
          · exact ⟨k, List.mem_cons_self k ks, traj, hg, hr0⟩
          · obtain ⟨k2, hk2, traj2, hg2, hr2⟩ := h1 r hr1
            exact ⟨k2, List.mem_cons_of_mem k hk2, traj2, hg2, hr2⟩
        · intro k2 hk2
          rcases List.mem_cons.mp hk2 with hk0 | hk1
          · subst hk0
            exact ⟨traj, hg, List.mem_cons_self _ _⟩
          · obtain ⟨traj2, hg2, hmem2⟩ := h2 k2 hk1
            exact ⟨traj2, hg2, List.mem_cons_of_mem _ hmem2⟩

theorem selectRows_some_of_bounds (ts : TimeSeries) :
    ∀ ind : List Nat, (∀ k ∈ ind, k < ts.states.length) →
      ∃ rows, selectRows ts ind = some rows := by
  intro ind
  induction ind with
  | nil => exact fun _ => ⟨[], rfl⟩
  | cons k ks ih =>
    intro h
    obtain ⟨rows0, hrows0⟩ := ih (fun x hx => h x (List.mem_cons_of_mem k hx))
    have hk : k < ts.states.length := h k (List.mem_cons_self k ks)
    have htraj : ts.states[k]? = some ts.states[k] := List.getElem?_eq_getElem hk
    exact ⟨proteinRow ts.states[k] :: rows0, by simp only [selectRows, htraj, hrows0]⟩

/-- Claim C7: the trajectories the notebook plots are exactly the selected
rows of comparison.reference.states and comparison.compared.states as
returned by the external engine through ConditionSimulation.run — each
plotted ydata is a states row of one of the two engine outputs, every
selected row of each output is plotted, and no numerical transformation is
applied. -/
theorem plotted_trajectories_are_engine_rows
    (engine : Engine) (N : Nat) (m : LinearModel) (cond : Condition)
    (c : Comparison) (ind : List Nat) (lines : List TrajLine)
    (hc : ((ConditionSimulation.mk m []).run engine N).comparisons.lookup cond
        = some c)
    (hp : plot_trajectories c ind = some lines) :
    c.reference = engine m cond N
    ∧ c.compared = engine (removePerturbed m) cond N
    ∧ (∀ line ∈ lines, ∃ k ∈ ind, ∃ traj,
        ((engine m cond N).states[k]? = some traj
            ∨ (engine (removePerturbed m) cond N).states[k]? = some traj)
        ∧ line.ydata = proteinRow traj)
    ∧ (∀ k ∈ ind, ∃ traj, (engine m cond N).states[k]? = some traj
        ∧ ∃ line ∈ lines, line.ydata = proteinRow traj)
    ∧ (∀ k ∈ ind, ∃ traj,
        (engine (removePerturbed m) cond N).states[k]? = some traj
        ∧ ∃ line ∈ lines, line.ydata = proteinRow traj) := by
  have hcc : c = mkComparison engine m cond N := by
    have hlk : ((ConditionSimulation.mk m []).run engine N).comparisons.lookup cond
        = some (mkComparison engine m cond N) := by cases cond <;> rfl
    rw [hlk] at hc
    exact (Option.some.injEq _ _ ▸ hc).symm
  subst hcc
  cases hr : selectRows (mkComparison engine m cond N).reference ind with
  | none =>
    simp only [plot_trajectories, hr] at hp
    exact Option.noConfusion hp
  | some refRows =>
    cases hq : selectRows (mkComparison engine m cond N).compared ind with
    | none =>
      simp only [plot_trajectories, hr, hq] at hp
      exact Option.noConfusion hp
    | some cmpRows =>
      simp only [plot_trajectories, hr, hq, Option.some.injEq] at hp
      subst hp
      obtain ⟨hr1, hr2, _⟩ := selectRows_mem _ ind refRows hr
      obtain ⟨hq1, hq2, _⟩ := selectRows_mem _ ind cmpRows hq
      refine ⟨rfl, rfl, ?_, ?_, ?_⟩
      · intro line hline
        rcases List.mem_append.mp hline with hml | hmr
        · obtain ⟨r, hrm, hrl⟩ := List.mem_map.mp hml
          obtain ⟨k, hk, traj, hg, hre⟩ := hr1 r hrm
          exact ⟨k, hk, traj, Or.inl hg, by rw [← hrl, ← hre]⟩
        · obtain ⟨r, hrm, hrl⟩ := List.mem_map.mp hmr
          obtain ⟨k, hk, traj, hg, hre⟩ := hq1 r hrm
          exact ⟨k, hk, traj, Or.inr hg, by rw [← hrl, ← hre]⟩
      · intro k hk
        obtain ⟨traj, hg, hmem⟩ := hr2 k hk
        refine ⟨traj, hg, ?_⟩
        exact ⟨_, List.mem_append_left _ (List.mem_map_of_mem _ hmem), rfl⟩
      · intro k hk
        obtain ⟨traj, hg, hmem⟩ := hq2 k hk
        refine ⟨traj, hg, ?_⟩
        exact ⟨_, List.mem_append_right _ (List.mem_map_of_mem _ hmem), rfl⟩

/-- A concrete black-box engine for the witnesses: it returns the same
time series for every request. -/
def witnessEngine : Engine :=
  fun _ _ _ => witnessReference

/-- A concrete model with one perturbed promoter for the witnesses. -/
def witnessModel : LinearModel :=
  (LinearModel.init (1/100) (1/1000) true).add_promoters (1/2) 0 0 true

/-- The comparison produced by running the witness model under normal
metabolism with the witness engine. -/
def witnessRunComparison : Comparison :=
  mkComparison witnessEngine witnessModel Condition.normal 5

/-- The concrete index sample used by the trajectory witnesses. -/
def witnessInd : List Nat :=
  [0, 1]

/-- The lines plot_trajectories draws for the witness comparison. -/
def witnessLines : List TrajLine :=
  [{ xdata := [0, 1], ydata := [1, 2], color := "m" },
   { xdata := [0, 1], ydata := [1, 1], color := "m" },
   { xdata := [0, 1], ydata := [1, 2], color := "grey" },
   { xdata := [0, 1], ydata := [1, 1], color := "grey" }]

/-- Witness for claim C7 at a concrete engine, model and index sample. -/
theorem plotted_trajectories_are_engine_rows_witness :
    witnessRunComparison.reference = witnessEngine witnessModel Condition.normal 5
    ∧ witnessRunComparison.compared
        = witnessEngine (removePerturbed witnessModel) Condition.normal 5
    ∧ (∀ line ∈ witnessLines, ∃ k ∈ witnessInd, ∃ traj,
        ((witnessEngine witnessModel Condition.normal 5).states[k]? = some traj
            ∨ (witnessEngine (removePerturbed witnessModel)
                Condition.normal 5).states[k]? = some traj)
        ∧ line.ydata = proteinRow traj)
    ∧ (∀ k ∈ witnessInd, ∃ traj,
        (witnessEngine witnessModel Condition.normal 5).states[k]? = some traj
        ∧ ∃ line ∈ witnessLines, line.ydata = proteinRow traj)
    ∧ (∀ k ∈ witnessInd, ∃ traj,
        (witnessEngine (removePerturbed witnessModel)
            Condition.normal 5).states[k]? = some traj
        ∧ ∃ line ∈ witnessLines, line.ydata = proteinRow traj) :=
  plotted_trajectories_are_engine_rows witnessEngine 5 witnessModel
    Condition.normal witnessRunComparison witnessInd witnessLines rfl rfl

/-- Claim C8: when every sampled index lies below the reference trajectory
count (as np.random.randint(0, reference.states.shape[0], N) guarantees) and
the compared set has at least as many trajectories as the reference set,
every states access of plot_trajectories is in bounds and exactly N
trajectories from each of the two sets are plotted (the same index set
selecting from both). -/
theorem plot_trajectories_in_bounds_and_counts
    (c : Comparison) (ind : List Nat) (N : Nat)
    (hlen : ind.length = N)
    (hrange : ∀ k ∈ ind, k < c.reference.states.length)
    (hge : c.reference.states.length ≤ c.compared.states.length) :
    (∀ k ∈ ind, (c.reference.states[k]?).isSome ∧ (c.compared.states[k]?).isSome)
    ∧ ∃ lines, plot_trajectories c ind = some lines
      ∧ lines.countP (fun l => l.color == "m") = N
      ∧ lines.countP (fun l => l.color == "grey") = N
      ∧ lines.length = 2 * N := by
  have hrange2 : ∀ k ∈ ind, k < c.compared.states.length :=
    fun k hk => lt_of_lt_of_le (hrange k hk) hge
  obtain ⟨refRows, h1⟩ := selectRows_some_of_bounds c.reference ind hrange
  obtain ⟨cmpRows, h2⟩ := selectRows_some_of_bounds c.compared ind hrange2
  have hL1 : refRows.length = ind.length := (selectRows_mem _ ind refRows h1).2.2
  have hL2 : cmpRows.length = ind.length := (selectRows_mem _ ind cmpRows h2).2.2
  refine ⟨?_, ?_⟩
  · intro k hk
    constructor
    · rw [List.getElem?_eq_getElem (hrange k hk)]; rfl
    · rw [List.getElem?_eq_getElem (hrange2 k hk)]; rfl
  · refine ⟨refRows.map (fun r => { xdata := c.t, ydata := r, color := "m" })
        ++ cmpRows.map (fun r => { xdata := c.t, ydata := r, color := "grey" }),
      by simp only [plot_trajectories, h1, h2], ?_, ?_, ?_⟩
    · rw [List.countP_append, List.countP_map, List.countP_map]
      rw [show ((fun (l : TrajLine) => l.color == "m") ∘ fun r =>
            ({ xdata := c.t, ydata := r, color := "m" } : TrajLine))
          = fun _ => true from rfl]
      rw [show ((fun (l : TrajLine) => l.color == "m") ∘ fun r =>
            ({ xdata := c.t, ydata := r, color := "grey" } : TrajLine))
          = fun _ => false from rfl]
      simp [hL1, hlen]
    · rw [List.countP_append, List.countP_map, List.countP_map]
      rw [show ((fun (l : TrajLine) => l.color == "grey") ∘ fun r =>
            ({ xdata := c.t, ydata := r, color := "m" } : TrajLine))
          = fun _ => false from rfl]
      rw [show ((fun (l : TrajLine) => l.color == "grey") ∘ fun r =>
            ({ xdata := c.t, ydata := r, color := "grey" } : TrajLine))
          = fun _ => true from rfl]
      simp [hL2, hlen]
    · rw [List.length_append, List.length_map, List.length_map, hL1, hL2, hlen]
      omega

/-- Witness for claim C8 at a concrete comparison and index sample. -/
theorem plot_trajectories_in_bounds_witness :
    (∀ k ∈ witnessInd, (witnessComparison.reference.states[k]?).isSome
        ∧ (witnessComparison.compared.states[k]?).isSome)
    ∧ ∃ lines, plot_trajectories witnessComparison witnessInd = some lines
      ∧ lines.countP (fun l => l.color == "m") = 2
      ∧ lines.countP (fun l => l.color == "grey") = 2
      ∧ lines.length = 2 * 2 :=
  plot_trajectories_in_bounds_and_counts witnessComparison witnessInd 2
    (by decide) (by decide) (by decide)

/-- plot_heatmap of the pairwise notebook viewed as a state transformer over
the comparisons mapping: its body only reads comparisons.items() and the
threshold_error attributes, so it passes the mapping on unchanged. -/
def plot_heatmap_eff (comparisons : PairGrid) (condition : Condition) :
    Option Pairwise.HeatmapFig × PairGrid :=
  (Pairwise.plot_heatmap comparisons condition, comparisons)

/-- plot_trajectories viewed as a state transformer over its comparison
argument: its body only reads the states, t and shape attributes, so it
passes the comparison on unchanged. -/
def plot_trajectories_eff (comparison : Comparison) (ind : List Nat) :
    Option (List TrajLine) × Comparison :=
  (plot_trajectories comparison ind, comparison)

/-- The notebook loop `for condition in (normal, diabetic, hyper_metabolic):
fig = plot_heatmap(comparisons, condition)`, threading the mapping state
through the successive calls. -/
def plotAllConditions (comparisons : PairGrid) :
    List (Option Pairwise.HeatmapFig) × PairGrid :=
  let s1 := plot_heatmap_eff comparisons Condition.normal
  let s2 := plot_heatmap_eff s1.2 Condition.diabetic
  let s3 := plot_heatmap_eff s2.2 Condition.hyper_metabolic
  ([s1.1, s2.1, s3.1], s3.2)

/-- Claim C10: plot_heatmap and plot_trajectories leave the comparison data
unchanged, so the three successive plot_heatmap calls all read the identical
mapping and render independent per-condition views of one result set. -/
theorem plot_functions_do_not_modify_comparisons
    (comparisons : PairGrid) (condition : Condition) (c : Comparison)
    (ind : List Nat) :
    (plot_heatmap_eff comparisons condition).2 = comparisons
    ∧ (plot_trajectories_eff c ind).2 = c
    ∧ plotAllConditions comparisons
        = ([Pairwise.plot_heatmap comparisons Condition.normal,
            Pairwise.plot_heatmap comparisons Condition.diabetic,
            Pairwise.plot_heatmap comparisons Condition.hyper_metabolic],
           comparisons) :=
  ⟨rfl, rfl, rfl⟩

namespace Pickle

/-- Modelled from the spec: pickle flattens the comparisons mapping into a
byte stream; the stream is modelled as a list of primitive tokens. -/
inductive Tok
  | nat (n : Nat)
  | rat (q : ℚ)
deriving DecidableEq, Repr

/-- Serialize one natural number. -/
def encNat (n : Nat) : List Tok :=
  [Tok.nat n]

/-- Serialize one rational level. -/
def encRat (q : ℚ) : List Tok :=
  [Tok.rat q]

/-- Serialize a list as its length followed by its serialized elements. -/
def encList (enc : α → List Tok) (xs : List α) : List Tok :=
  Tok.nat xs.length :: xs.flatMap enc

/-- Serialize a pair as the two components in order. -/
def encProd (ea : α → List Tok) (eb : β → List Tok) (p : α × β) : List Tok :=
  ea p.1 ++ eb p.2

/-- Serialize a metabolic condition as its tag. -/
def encCondition : Condition → List Tok
  | Condition.normal => [Tok.nat 0]
  | Condition.diabetic => [Tok.nat 1]
  | Condition.hyper_metabolic => [Tok.nat 2]

/-- Serialize a grid position. -/
def encFin3 (i : Fin 3) : List Tok :=
  [Tok.nat i.val]

/-- Serialize a time series: its time axis then its states array. -/
def encTimeSeries (ts : TimeSeries) : List Tok :=
  encList encRat ts.t ++ encList (encList (encList encRat)) ts.states

/-- Serialize a comparison: reference then compared. -/
def encComparison (c : Comparison) : List Tok :=
  encTimeSeries c.reference ++ encTimeSeries c.compared

/-- Deserialize one natural number. -/
def decNat : List Tok → Option (Nat × List Tok)
  | Tok.nat n :: rest => some (n, rest)
  | _ => none

/-- Deserialize one rational level. -/
def decRat : List Tok → Option (ℚ × List Tok)
  | Tok.rat q :: rest => some (q, rest)
  | _ => none

/-- Deserialize a known number of elements. -/
def decCount (dec : List Tok → Option (α × List Tok)) :
    Nat → List Tok → Option (List α × List Tok)
  | 0, toks => some ([], toks)
  | n + 1, toks =>
    match dec toks with
    | some (a, toks1) =>
      match decCount dec n toks1 with
      | some (as, toks2) => some (a :: as, toks2)
      | none => none
    | none => none

/-- Deserialize a length-prefixed list. -/
def decList (dec : List Tok → Option (α × List Tok)) (toks : List Tok) :
    Option (List α × List Tok) :=
  match decNat toks with
  | some (n, toks1) => decCount dec n toks1
  | none => none

/-- Deserialize a pair. -/
def decProd (da : List Tok → Option (α × List Tok))
    (db : List Tok → Option (β × List Tok)) (toks : List Tok) :
    Option ((α × β) × List Tok) :=
  match da toks with
  | some (a, toks1) =>
    match db toks1 with
    | some (b, toks2) => some ((a, b), toks2)
    | none => none
  | none => none

/-- Deserialize a metabolic condition. -/
def decCondition : List Tok → Option (Condition × List Tok)
  | Tok.nat 0 :: rest => some (Condition.normal, rest)
  | Tok.nat 1 :: rest => some (Condition.diabetic, rest)
  | Tok.nat 2 :: rest => some (Condition.hyper_metabolic, rest)
  | _ => none

/-- Deserialize a grid position. -/
def decFin3 : List Tok → Option (Fin 3 × List Tok)
  | Tok.nat n :: rest =>
    if h : n < 3 then some (⟨n, h⟩, rest) else none
  | _ => none

/-- Deserialize a time series. -/
def decTimeSeries (toks : List Tok) : Option (TimeSeries × List Tok) :=
  match decList decRat toks with
  | some (t, toks1) =>
    match decList (decList (decList decRat)) toks1 with
    | some (states, toks2) => some ({ t := t, states := states }, toks2)
    | none => none
  | none => none

/-- Deserialize a comparison. -/
def decComparison (toks : List Tok) : Option (Comparison × List Tok) :=
  match decTimeSeries toks with
  | some (reference, toks1) =>
    match decTimeSeries toks1 with
    | some (compared, toks2) =>
        some ({ reference := reference, compared := compared }, toks2)
    | none => none
  | none => none

/-- Modelled from the spec: pickle.dump of a pair-keyed comparisons mapping
(data/simulations/pairwise_simulations/repressors.pkl). -/
def pickle_dump (m : PairGrid) : List Tok :=
  encList (encProd (encProd encFin3 encFin3)
    (encList (encProd encCondition encComparison))) m

/-- Modelled from the spec: pickle.load of a pair-keyed comparisons mapping;
decoding must consume the whole stream. -/
def pickle_load (toks : List Tok) : Option PairGrid :=
  match decList (decProd (decProd decFin3 decFin3)
      (decList (decProd decCondition decComparison))) toks with
  | some (m, []) => some m
  | _ => none

/-- Modelled from the spec: pickle.dump of a position-keyed comparisons
mapping (data/simulations/pairwise_simulations/promoters.pkl). -/
def pickle_dump1 (m : LossGrid) : List Tok :=
  encList (encProd encFin3 (encList (encProd encCondition encComparison))) m

/-- Modelled from the spec: pickle.load of a position-keyed comparisons
mapping; decoding must consume the whole stream. -/
def pickle_load1 (toks : List Tok) : Option LossGrid :=
  match decList (decProd decFin3
      (decList (decProd decCondition decComparison))) toks with
  | some (m, []) => some m
  | _ => none

/-- A decoder inverts an encoder when it reads back exactly the encoded
value and leaves the rest of the stream untouched. -/
def Inverts (enc : α → List Tok) (dec : List Tok → Option (α × List Tok)) :
    Prop :=
  ∀ (a : α) (rest : List Tok), dec (enc a ++ rest) = some (a, rest)

theorem decNat_encNat : Inverts encNat decNat :=
  fun _ _ => rfl

theorem decRat_encRat : Inverts encRat decRat :=
  fun _ _ => rfl

theorem decCondition_encCondition : Inverts encCondition decCondition := by
  intro a rest
  cases a <;> rfl

theorem decFin3_encFin3 : Inverts encFin3 decFin3 := by
  intro a rest
  simp only [encFin3, decFin3, List.cons_append, List.nil_append, a.isLt, dite_true]

theorem decCount_encCount (enc : α → List Tok)
    (dec : List Tok → Option (α × List Tok)) (h : Inverts enc dec) :
    ∀ (xs : List α) (rest : List Tok),
      decCount dec xs.length (xs.flatMap enc ++ rest) = some (xs, rest) := by
  intro xs
  induction xs with
  | nil => intro rest; rfl
  | cons x xs ih =>
    intro rest
    have : (x :: xs).flatMap enc ++ rest = enc x ++ (xs.flatMap enc ++ rest) := by
      simp [List.flatMap_cons, List.append_assoc]
    rw [List.length_cons, this]
    simp only [decCount, h x (xs.flatMap enc ++ rest), ih rest]

theorem decList_encList (enc : α → List Tok)
    (dec : List Tok → Option (α × List Tok)) (h : Inverts enc dec) :
    Inverts (encList enc) (decList dec) := by
  intro xs rest
  simp only [encList, decList, List.cons_append, decNat]
  exact decCount_encCount enc dec h xs rest

theorem decProd_encProd (ea : α → List Tok)
    (da : List Tok → Option (α × List Tok)) (ha : Inverts ea da)
    (eb : β → List Tok) (db : List Tok → Option (β × List Tok))
    (hb : Inverts eb db) :
    Inverts (encProd ea eb) (decProd da db) := by
  intro p rest
  simp only [encProd, decProd, List.append_assoc,
    ha p.1 (eb p.2 ++ rest), hb p.2 rest]

theorem decTimeSeries_encTimeSeries : Inverts encTimeSeries decTimeSeries := by
  intro ts rest
  simp only [encTimeSeries, decTimeSeries, List.append_assoc,
    decList_encList encRat decRat decRat_encRat ts.t _,
    decList_encList _ _ (decList_encList _ _
      (decList_encList encRat decRat decRat_encRat)) ts.states rest]

theorem decComparison_encComparison : Inverts encComparison decComparison := by
  intro c rest
  simp only [encComparison, decComparison, List.append_assoc,
    decTimeSeries_encTimeSeries c.reference _,
    decTimeSeries_encTimeSeries c.compared rest]

/-- Claim C6: unpickling a previously pickled comparisons mapping yields the
mapping that was pickled — same keys and unchanged threshold_error per key
and condition — so plot_heatmap renders the same figure from the unpickled
results as from the original ones, for both the pair-keyed and the
position-keyed mappings. -/
theorem pickle_roundtrip_preserves_comparisons
    (pg : PairGrid) (lg : LossGrid) (condition : Condition) :
    pickle_load (pickle_dump pg) = some pg
    ∧ (pickle_load (pickle_dump pg)).map (fun loaded => loaded.map Prod.fst)
        = some (pg.map Prod.fst)
    ∧ (pickle_load (pickle_dump pg)).map
          (fun loaded => Pairwise.plot_heatmap loaded condition)
        = some (Pairwise.plot_heatmap pg condition)
    ∧ pickle_load1 (pickle_dump1 lg) = some lg
    ∧ (pickle_load1 (pickle_dump1 lg)).map (fun loaded => loaded.map Prod.fst)
        = some (lg.map Prod.fst)
    ∧ (pickle_load1 (pickle_dump1 lg)).map
          (fun loaded => PromoterLoss.plot_heatmap loaded condition)
        = some (PromoterLoss.plot_heatmap lg condition) := by
  have hcmaps : Inverts (encList (encProd encCondition encComparison))
      (decList (decProd decCondition decComparison)) :=
    decList_encList _ _ (decProd_encProd _ _ decCondition_encCondition
      _ _ decComparison_encComparison)
  have hpg : pickle_load (pickle_dump pg) = some pg := by
    have h := decList_encList _ _
      (decProd_encProd _ _
        (decProd_encProd _ _ decFin3_encFin3 _ _ decFin3_encFin3)
        _ _ hcmaps) pg []
    rw [List.append_nil] at h
    simp only [pickle_load, pickle_dump, h]
  have hlg : pickle_load1 (pickle_dump1 lg) = some lg := by
    have h := decList_encList _ _
      (decProd_encProd _ _ decFin3_encFin3 _ _ hcmaps) lg []
    rw [List.append_nil] at h
    simp only [pickle_load1, pickle_dump1, h]
  exact ⟨hpg, by rw [hpg]; rfl, by rw [hpg]; rfl,
    hlg, by rw [hlg]; rfl, by rw [hlg]; rfl⟩

end Pickle

end Promoters
